import Mathlib

/-!
Express-Sessions-Mysql: session and authentication handlers.

A shallow embedding of `src/index.js`.  Each route handler becomes a pure
function from the state it reads (the `users` table, the request's session, the
request body, the outcome of the database calls) to the state it leaves and the
response it sends.

Modelling conventions.

* A JavaScript string is its sequence of UTF-16 code units (`JSString`): this is
  what `String.prototype.split('')` splits on.
* The JavaScript numbers that occur are integers held in IEEE-754 doubles,
  `NaN` and the two infinities (`JSNumber`).  Every arithmetic result is
  rounded to the nearest double, ties to even (`roundDouble`).
* A body field is `none` when the field is missing (`undefined`) and `some s`
  when it is the string `s`; `maxAge` is `none` when missing and `some m` when
  it holds the decimal natural number `m`.  Other body values (arrays, objects)
  are outside the model.
* The `users` table is a list of rows in insertion order.  The table's schema
  is not part of the repository; only the two columns the code names are
  modelled.  Query parameters reach the server through the driver's
  connection, which `sqlOptions` leaves at its default character set: the
  driver encodes a string as UTF-8, and UTF-8 has no encoding for an unpaired
  surrogate, which is sent as U+FFFD (`utf8Transport`).
* A database promise either resolves or rejects with an error message
  (`DbFaults`).
* The session middleware (`express-session`, lines 62-78) runs before every
  route.  When a response ends and the request still has its session, it
  calls `session.touch()`, which re-dates the cookie from the clock and
  recomputes `cookie.originalMaxAge` (`touch`, `finish`, `serve`).  The two
  clock reads of that call are a parameter (`Clock`).
-/

namespace ExpressSessionsMysql

/-! ## JavaScript values -/

/-- A UTF-16 code unit. -/
abbrev CodeUnit := Fin 65536

/-- A JavaScript string: a finite sequence of UTF-16 code units. -/
abbrev JSString := List CodeUnit

/-- The JavaScript numbers that occur. `fin n` is the double whose value is
the natural number `n`, `neg n` the double whose value is `-n` (`neg 0` is
`-0`), `inf` and `ninf` are `Infinity` and `-Infinity`. -/
inductive JSNumber where
  | nan
  | inf
  | ninf
  | fin (n : Nat)
  | neg (n : Nat)
  deriving DecidableEq, Repr

/-- The number of low-order bits a double cannot keep of `n`: the least
`e ≥ start` with `n / 2 ^ e < 2 ^ 53` (`fuel` bounds the search; `n` is
enough). -/
def droppedBits (fuel start n : Nat) : Nat :=
  match fuel with
  | 0 => start
  | fuel + 1 => if n / 2 ^ start < 2 ^ 53 then start else droppedBits fuel (start + 1) n

/-- The significand of `n` at exponent `e`: `n / 2 ^ e` rounded to nearest,
ties to even. -/
def roundedSignificand (n e : Nat) : Nat :=
  let q := n / 2 ^ e
  let r := n % 2 ^ e
  if 2 ^ e < 2 * r ∨ (2 * r = 2 ^ e ∧ q % 2 = 1) then q + 1 else q

/-- Round a natural number to the nearest IEEE-754 double: 53 significant
bits, ties to even; the largest finite double is `(2 ^ 53 - 1) * 2 ^ 971`, and
what rounds above it is `Infinity`. -/
def roundDouble (n : Nat) : JSNumber :=
  if n < 2 ^ 53 then JSNumber.fin n
  else
    let e := droppedBits n 0 n
    let q1 := roundedSignificand n e
    if e < 971 ∨ (e = 971 ∧ q1 < 2 ^ 53) then JSNumber.fin (q1 * 2 ^ e) else JSNumber.inf

/-- Whether the sign bit is set. -/
def JSNumber.isNegative : JSNumber → Bool
  | JSNumber.ninf => true
  | JSNumber.neg _ => true
  | _ => false

/-- The absolute value. -/
def JSNumber.abs : JSNumber → JSNumber
  | JSNumber.ninf => JSNumber.inf
  | JSNumber.neg n => JSNumber.fin n
  | x => x

/-- Give a non-negative number the sign `negative`. -/
def JSNumber.withSign (negative : Bool) : JSNumber → JSNumber
  | JSNumber.inf => if negative then JSNumber.ninf else JSNumber.inf
  | JSNumber.fin n => if negative then JSNumber.neg n else JSNumber.fin n
  | x => x

/-- The product of two non-negative numbers. -/
def mulMagnitude : JSNumber → JSNumber → JSNumber
  | JSNumber.inf, JSNumber.inf => JSNumber.inf
  | JSNumber.inf, JSNumber.fin b => if b = 0 then JSNumber.nan else JSNumber.inf
  | JSNumber.fin a, JSNumber.inf => if a = 0 then JSNumber.nan else JSNumber.inf
  | JSNumber.fin a, JSNumber.fin b => roundDouble (a * b)
  | _, _ => JSNumber.nan

/-- JavaScript `a * b`: the product of the magnitudes, negative when exactly
one factor is. -/
def JSNumber.mul (a b : JSNumber) : JSNumber :=
  (mulMagnitude a.abs b.abs).withSign (a.isNegative != b.isNegative)

/-- The integer a finite number holds. -/
def JSNumber.toInt? : JSNumber → Option Int
  | JSNumber.fin n => some (Int.ofNat n)
  | JSNumber.neg n => some (-Int.ofNat n)
  | _ => none

/-- The double nearest to an integer (an exact zero is `+0`). -/
def ofInt (z : Int) : JSNumber :=
  if 0 ≤ z then roundDouble z.toNat else (roundDouble (-z).toNat).withSign true

/-- JavaScript `a + 1` (the arithmetic of `a++`). -/
def JSNumber.succ : JSNumber → JSNumber
  | JSNumber.nan => JSNumber.nan
  | JSNumber.inf => JSNumber.inf
  | JSNumber.ninf => JSNumber.ninf
  | JSNumber.fin a => roundDouble (a + 1)
  | JSNumber.neg a => ofInt (1 - Int.ofNat a)

/-- `ToNumber` of the `maxAge` body field: `undefined` becomes `NaN`, a decimal
natural number becomes the nearest double. -/
def toNumber : Option Nat → JSNumber
  | none => JSNumber.nan
  | some m => roundDouble m

/-- JavaScript truthiness of a body field that is a string or `undefined`:
only `undefined` and the empty string are falsy. -/
def truthy : Option JSString → Bool
  | none => false
  | some s => !s.isEmpty

/-! ## Password verifier (`src/index.js` lines 81-87) -/

/-- `s.split('')`: one single-unit string per code unit. -/
def split (s : JSString) : List JSString := s.map (fun c => [c])

/-- `xs.join('')`: concatenation. -/
def join (xs : List JSString) : JSString := xs.flatten

/-- `createHash`: `password.split('').reverse().join('')`. -/
def createHash (password : JSString) : JSString := join (split password).reverse

/-- `compareHash`: `createHash(password) === hash`. -/
def compareHash (password hash : JSString) : Bool := createHash password == hash

/-! ## Data model -/

/-- A row of the `users` table: the columns the code names. -/
structure User where
  username : JSString
  password : JSString
  deriving DecidableEq, Repr

/-- The `users` table, rows in insertion order. -/
abbrev UsersTable := List User

/-- A code unit of the range 0xD800-0xDBFF. -/
def isHighSurrogate (c : CodeUnit) : Bool := 0xD800 ≤ c.val && c.val ≤ 0xDBFF

/-- A code unit of the range 0xDC00-0xDFFF. -/
def isLowSurrogate (c : CodeUnit) : Bool := 0xDC00 ≤ c.val && c.val ≤ 0xDFFF

/-- U+FFFD, which a UTF-8 encoder writes for what it cannot encode. -/
def replacementCharacter : CodeUnit := 0xFFFD

/-- What a string is once it has crossed the database connection as UTF-8
(the driver is not part of the repository; `sqlOptions`, lines 25-34, sets no
`charset`): a high surrogate followed by a low surrogate is one character and
is kept, every other surrogate is unpaired and becomes U+FFFD. -/
def utf8Transport : JSString → JSString
  | [] => []
  | [c] => if isHighSurrogate c || isLowSurrogate c then [replacementCharacter] else [c]
  | c :: d :: rest =>
    if isHighSurrogate c && isLowSurrogate d then c :: d :: utf8Transport rest
    else if isHighSurrogate c || isLowSurrogate c then
      replacementCharacter :: utf8Transport (d :: rest)
    else c :: utf8Transport (d :: rest)

/-- `SELECT * FROM users WHERE username = ?`: the rows whose name is the
parameter as it reaches the server. Names are compared as they cross the
connection; a name the table got through an `INSERT` crosses unchanged. -/
def selectByUsername (users : UsersTable) (username : JSString) : List User :=
  users.filter (fun row => utf8Transport row.username == utf8Transport username)

/-- The table after the server has appended a row with the column values
`username` and `password`, as they reached it. -/
def insertUser (users : UsersTable) (username password : JSString) : UsersTable :=
  users ++ [{ username := username, password := password }]

/-- `connection.query('INSERT INTO users (username, password) VALUES (?, ?)',
[username, hash])`: both parameters cross the connection. -/
def queryInsert (users : UsersTable) (username hash : JSString) : UsersTable :=
  insertUser users (utf8Transport username) (utf8Transport hash)

/-- How the database promises of one request settle: each field is `none`
when the promise resolves and `some msg` when it rejects with an error whose
`message` is `msg`. -/
structure DbFaults where
  getConnection : Option JSString
  select : Option JSString
  insert : Option JSString
  deriving DecidableEq, Repr

/-- `req.session.cookie`: the field the handlers touch. -/
structure Cookie where
  originalMaxAge : JSNumber
  deriving DecidableEq, Repr

/-- `req.session`: `user` and `count` are `none` while `undefined`. -/
structure Session where
  cookie : Cookie
  user : Option User
  count : Option JSNumber
  deriving DecidableEq, Repr

/-- The named parameters handed to a view. For `home`, `maxAgeMs` is the
dividend of the `maxAge` parameter, which the handler passes as
`originalMaxAge / 1000`. -/
inductive Locals where
  | empty
  | home (counter : JSNumber) (maxAgeMs : JSNumber)
  | url (url : JSString)
  | error (url : JSString) (err : JSString)
  deriving DecidableEq, Repr

/-- What a handler sends. `redirect loc` is `res.status(200).redirect(loc)`
(Express sends it as a 302 redirect to `loc`); `render st view locals` is
`res.status(st).render(view, locals)`. -/
inductive Response where
  | redirect (location : String)
  | render (status : Nat) (view : String) (locals : Locals)
  deriving DecidableEq, Repr

/-- The state a handler leaves: the response it sent (`none` when it sent
nothing), the fields of the request's session, whether the handler called
`req.session.destroy()` (which removes the session from the store and from
the request and writes none of its fields), and the `users` table. -/
structure Outcome where
  response : Option Response
  session : Session
  destroyed : Bool
  users : UsersTable
  deriving DecidableEq, Repr

/-- The body of `POST /login`. -/
structure LoginBody where
  username : Option JSString
  password : Option JSString
  maxAge : Option Nat
  deriving DecidableEq, Repr

/-- The body of `POST /register`. -/
structure RegisterBody where
  username : Option JSString
  password : Option JSString
  confirmPassword : Option JSString
  deriving DecidableEq, Repr

/-- The requests the application routes. -/
inductive Request where
  | getRoot
  | getLogin
  | postLogin (body : LoginBody)
  | getLogout
  | getRegister
  | postRegister (body : RegisterBody)
  | getHome
  | unmatched
  deriving DecidableEq, Repr

/-! ## Route handlers (`src/index.js` lines 90-209) -/

/-- The handler sends `r` and writes neither the session nor the table. -/
def respond (r : Response) (users : UsersTable) (s : Session) : Outcome :=
  { response := some r, session := s, destroyed := false, users := users }

/-- The handler returns without calling any method of `res`. -/
def noResponse (users : UsersTable) (s : Session) : Outcome :=
  { response := none, session := s, destroyed := false, users := users }

/-- The `res.status(500).render('500', ...)` of the `catch` callbacks. -/
def render500 (url err : JSString) : Response :=
  Response.render 500 "500" (Locals.error url err)

/-- `app.get('/')`. -/
def getRoot (users : UsersTable) (s : Session) : Outcome :=
  if s.user.isSome then respond (Response.redirect "/home") users s
  else respond (Response.render 200 "index" Locals.empty) users s

/-- `app.get('/login')`. -/
def getLogin (users : UsersTable) (s : Session) : Outcome :=
  if s.user.isSome then respond (Response.redirect "/home") users s
  else respond (Response.render 200 "login" Locals.empty) users s

/-- `app.post('/login')`. When `username && password` is falsy (a field is
missing or empty) the `if` has no `else`: nothing is sent. -/
def postLogin (db : DbFaults) (url : JSString) (users : UsersTable) (s : Session)
    (body : LoginBody) : Outcome :=
  match body.username, body.password with
  | some username, some password =>
    if truthy (some username) && truthy (some password) then
      match db.getConnection with
      | some err => respond (render500 url err) users s
      | none =>
        match db.select with
        | some err => respond (render500 url err) users s
        | none =>
          match selectByUsername users username with
          | user :: _ =>
            if compareHash password user.password then
              { response := some (Response.redirect "/home"),
                session :=
                  { s with
                    cookie := { s.cookie with originalMaxAge :=
                      ((toNumber body.maxAge).mul (JSNumber.fin 1000)).mul (JSNumber.fin 60) },
                    user := some user,
                    count := some (JSNumber.fin 0) },
                destroyed := false,
                users := users }
            else respond (Response.render 200 "login" Locals.empty) users s
          | [] => respond (Response.render 200 "login" Locals.empty) users s
    else noResponse users s
  | _, _ => noResponse users s

/-- `app.get('/logout')`. -/
def getLogout (users : UsersTable) (s : Session) : Outcome :=
  { response := some (Response.redirect "/login"), session := s, destroyed := true,
    users := users }

/-- `app.get('/register')`. -/
def getRegister (users : UsersTable) (s : Session) : Outcome :=
  if s.user.isSome then respond (Response.redirect "/home") users s
  else respond (Response.render 200 "register" Locals.empty) users s

/-- `app.post('/register')`. A missing field makes the guard
`username && password && confirmPassword && password === confirmPassword`
falsy, like an empty one. -/
def postRegister (db : DbFaults) (url : JSString) (users : UsersTable) (s : Session)
    (body : RegisterBody) : Outcome :=
  match body.username, body.password, body.confirmPassword with
  | some username, some password, some confirmPassword =>
    if truthy (some username) && truthy (some password) && truthy (some confirmPassword)
        && (password == confirmPassword) then
      match db.getConnection with
      | some err => respond (render500 url err) users s
      | none =>
        match db.select with
        | some err => respond (render500 url err) users s
        | none =>
          match selectByUsername users username with
          | _ :: _ => respond (Response.render 200 "register" Locals.empty) users s
          | [] =>
            match db.insert with
            | some err => respond (render500 url err) users s
            | none =>
              respond (Response.redirect "/login")
                (queryInsert users username (createHash password)) s
    else respond (Response.render 200 "register" Locals.empty) users s
  | _, _, _ => respond (Response.render 200 "register" Locals.empty) users s

/-- The value `req.session.count++` stores: `undefined` counts as `NaN`. -/
def increment : Option JSNumber → JSNumber
  | none => JSNumber.nan
  | some c => c.succ

/-- `app.get('/home')`. -/
def getHome (users : UsersTable) (s : Session) : Outcome :=
  if s.user.isSome then
    { response := some (Response.render 200 "home"
        (Locals.home (increment s.count) s.cookie.originalMaxAge)),
      session := { s with count := some (increment s.count) },
      destroyed := false,
      users := users }
  else respond (Response.redirect "/login") users s

/-- The 404 handler, reached by every request no route matches. -/
def notFound (url : JSString) (users : UsersTable) (s : Session) : Outcome :=
  respond (Response.render 404 "404" (Locals.url url)) users s

/-- Routing: the handler each request reaches. -/
def handle (db : DbFaults) (url : JSString) (users : UsersTable) (s : Session) :
    Request → Outcome
  | Request.getRoot => getRoot users s
  | Request.getLogin => getLogin users s
  | Request.postLogin body => postLogin db url users s body
  | Request.getLogout => getLogout users s
  | Request.getRegister => getRegister users s
  | Request.postRegister body => postRegister db url users s body
  | Request.getHome => getHome users s
  | Request.unmatched => notFound url users s

/-! ## The session middleware at the end of a response -/

/-- The two reads of `Date.now()` (milliseconds) that one `session.touch()`
makes: `now` when it dates the cookie, `later` when it recomputes
`originalMaxAge`. -/
structure Clock where
  now : Nat
  later : Nat
  deriving DecidableEq, Repr

/-- The largest time value a `Date` holds; beyond it the `Date` is invalid
and its `valueOf()` is `NaN`. -/
def maxTimeValue : Nat := 8640000000000000

/-- The `cookie.originalMaxAge` that `session.touch()` leaves.
`cookie.maxAge = cookie.originalMaxAge` sets
`cookie.expires = new Date(Date.now() + originalMaxAge)`, and the `expires`
setter then stores `originalMaxAge = expires.valueOf() - Date.now()`. -/
def touchedMaxAge (clock : Clock) (age : JSNumber) : JSNumber :=
  match age.toInt? with
  | none => JSNumber.nan
  | some a =>
    match (ofInt (Int.ofNat clock.now + a)).toInt? with
    | none => JSNumber.nan
    | some t =>
      if t.natAbs ≤ maxTimeValue then ofInt (t - Int.ofNat clock.later) else JSNumber.nan

/-- `session.touch()`: of the modelled fields it rewrites `originalMaxAge`. -/
def touch (clock : Clock) (s : Session) : Session :=
  { s with
    cookie := { s.cookie with
      originalMaxAge := touchedMaxAge clock s.cookie.originalMaxAge } }

/-- What the middleware's `res.end` adds to a handler's outcome: when a
response was sent and the session was not destroyed, the session is touched
before it is saved. -/
def finish (clock : Clock) (o : Outcome) : Outcome :=
  if o.response.isSome && !o.destroyed then { o with session := touch clock o.session } else o

/-- One request from the session the store hands over to the session the
store gets back. -/
def serve (db : DbFaults) (url : JSString) (users : UsersTable) (s : Session)
    (clock : Clock) (r : Request) : Outcome :=
  finish clock (handle db url users s r)

/-- The session after `n` consecutive `GET /home` requests, request `k`
ending at the clock reads `clocks k` and the store handing each request the
session the previous one saved (the session is taken to stay alive
throughout). -/
def afterHomeVisits (users : UsersTable) (clocks : Nat → Clock) (s : Session) : Nat → Session
  | 0 => s
  | n + 1 => (finish (clocks n) (getHome users (afterHomeVisits users clocks s n))).session

/-- The session express-session hands a request that carries no session
cookie: the configured cookie (`maxAge` 24 hours), no user, no count. -/
def freshSession : Session :=
  { cookie := { originalMaxAge := JSNumber.fin (24 * 60 * 60 * 1000) }, user := none,
    count := none }

/-- Every database promise resolves. -/
def noFaults : DbFaults := { getConnection := none, select := none, insert := none }

/-- The view each gated `GET` route renders when it does not redirect. -/
def ownView : Request → String
  | Request.getRoot => "index"
  | Request.getLogin => "login"
  | Request.getRegister => "register"
  | Request.getHome => "home"
  | _ => ""

/-! ## Properties stated by the specification -/

/-- The user `username` is stored by registration with `password`: the row
the credential lookup returns for `username` is the row that the `INSERT` of a
registration of `username` with `password` appends, name and verifier as they
reach the server. Registration only stores non-empty names and passwords. -/
def RegisteredWith (users : UsersTable) (username password : JSString) : Prop :=
  username ≠ [] ∧ password ≠ [] ∧
    (selectByUsername users username).head? =
      some { username := utf8Transport username,
             password := utf8Transport (createHash password) }

/-- The verifier of `password` crosses the database connection unchanged: its
code units hold no unpaired surrogate. -/
def VerifierIntact (password : JSString) : Prop :=
  utf8Transport (createHash password) = createHash password

/-- `n` is the value of a finite double: it is below `2 ^ 1024` and has at
most 53 significant bits. -/
def IsDouble (n : Nat) : Prop := n < 2 ^ 1024 ∧ ∃ e k, k < 2 ^ 53 ∧ n = k * 2 ^ e

/-- No database promise rejects. -/
def DbFaults.allSucceed (db : DbFaults) : Prop :=
  db.getConnection = none ∧ db.select = none ∧ db.insert = none

/-- The connection is obtained and the `SELECT` resolves. -/
def DbFaults.lookupSucceeds (db : DbFaults) : Prop :=
  db.getConnection = none ∧ db.select = none

/-! ## The password verifier -/

theorem createHash_eq_reverse (p : JSString) : createHash p = p.reverse := by
  unfold createHash join split
  induction p with
  | nil => rfl
  | cons a t ih => simp [List.flatten_append] at ih ⊢; exact ih

theorem createHash_involutive (p : JSString) : createHash (createHash p) = p := by
  simp [createHash_eq_reverse]

theorem createHash_injective : Function.Injective createHash := by
  intro a b h
  have := congrArg createHash h
  simpa [createHash_involutive] using this

theorem compareHash_createHash (p : JSString) : compareHash p (createHash p) = true := by
  simp [compareHash]

theorem compareHash_eq_true_iff (q p : JSString) :
    compareHash q (createHash p) = true ↔ q = p := by
  simp [compareHash, createHash_injective.eq_iff]

theorem truthy_some (s : JSString) : truthy (some s) = true ↔ s ≠ [] := by
  cases s <;> simp [truthy]

/-! ## Handler lemmas -/

theorem selectByUsername_insertUser (users : UsersTable) (u h : JSString)
    (hfresh : selectByUsername users u = []) :
    selectByUsername (insertUser users u h) u = [{ username := u, password := h }] := by
  unfold selectByUsername insertUser at *
  simp [List.filter_append, hfresh]

theorem postRegister_fresh (db : DbFaults) (url : JSString) (users : UsersTable)
    (s : Session) (u p : JSString) (hu : u ≠ []) (hp : p ≠ []) (hdb : db.allSucceed)
    (hfresh : selectByUsername users u = []) :
    postRegister db url users s
        { username := some u, password := some p, confirmPassword := some p } =
      respond (Response.redirect "/login") (queryInsert users u (createHash p)) s := by
  obtain ⟨h1, h2, h3⟩ := hdb
  have tu := (truthy_some u).2 hu
  have tp := (truthy_some p).2 hp
  simp [postRegister, tu, tp, h1, h2, h3, hfresh]

theorem registeredWith_of_insert (users : UsersTable) (u p : JSString) (hu : u ≠ [])
    (hp : p ≠ []) (hfresh : selectByUsername users u = [])
    (hname : utf8Transport u = u) :
    RegisteredWith (queryInsert users u (createHash p)) u p := by
  refine ⟨hu, hp, ?_⟩
  unfold queryInsert
  rw [hname, selectByUsername_insertUser users u _ hfresh]
  rfl

theorem postLogin_found (db : DbFaults) (url : JSString) (users : UsersTable)
    (s : Session) (u q : JSString) (m : Option Nat) (user : User) (rest : List User)
    (hu : u ≠ []) (hq : q ≠ []) (hdb : db.lookupSucceeds)
    (hsel : selectByUsername users u = user :: rest) :
    postLogin db url users s { username := some u, password := some q, maxAge := m } =
      if compareHash q user.password then
        { response := some (Response.redirect "/home"),
          destroyed := false,
          session :=
            { cookie := { originalMaxAge :=
                ((toNumber m).mul (JSNumber.fin 1000)).mul (JSNumber.fin 60) },
              user := some user,
              count := some (JSNumber.fin 0) },
          users := users }
      else respond (Response.render 200 "login" Locals.empty) users s := by
  obtain ⟨h1, h2⟩ := hdb
  have tu := (truthy_some u).2 hu
  have tq := (truthy_some q).2 hq
  simp [postLogin, tu, tq, h1, h2, hsel]

theorem postLogin_unknown (db : DbFaults) (url : JSString) (users : UsersTable)
    (s : Session) (u q : JSString) (m : Option Nat)
    (hu : u ≠ []) (hq : q ≠ []) (hdb : db.lookupSucceeds)
    (hsel : selectByUsername users u = []) :
    postLogin db url users s { username := some u, password := some q, maxAge := m } =
      respond (Response.render 200 "login" Locals.empty) users s := by
  obtain ⟨h1, h2⟩ := hdb
  have tu := (truthy_some u).2 hu
  have tq := (truthy_some q).2 hq
  simp [postLogin, tu, tq, h1, h2, hsel]

theorem select_of_registeredWith (users : UsersTable) (u p : JSString)
    (h : RegisteredWith users u p) :
    ∃ rest, selectByUsername users u =
      { username := utf8Transport u, password := utf8Transport (createHash p) } :: rest := by
  obtain ⟨_, _, h3⟩ := h
  cases hsel : selectByUsername users u with
  | nil => simp [hsel] at h3
  | cons a t => simp [hsel] at h3; exact ⟨t, by rw [h3]⟩

theorem selectByUsername_ne_nil (users : UsersTable) (u : JSString)
    (h : ∃ row ∈ users, row.username = u) : selectByUsername users u ≠ [] := by
  obtain ⟨row, hmem, hrow⟩ := h
  intro hnil
  have : row ∈ selectByUsername users u := by
    unfold selectByUsername
    exact List.mem_filter.2 ⟨hmem, by simp [hrow]⟩
  rw [hnil] at this
  exact List.not_mem_nil _ this

theorem postRegister_taken (db : DbFaults) (url : JSString) (users : UsersTable)
    (s : Session) (body : RegisterBody) (u : JSString) (hu : body.username = some u)
    (htaken : selectByUsername users u ≠ []) :
    (postRegister db url users s body).users = users ∧
      (postRegister db url users s body).session = s ∧
      (postRegister db url users s body).destroyed = false ∧
      (postRegister db url users s body).response ≠ some (Response.redirect "/login") ∧
      (db.lookupSucceeds → (postRegister db url users s body).response =
        some (Response.render 200 "register" Locals.empty)) := by
  obtain ⟨bu, bp, bc⟩ := body
  simp only at hu
  subst hu
  cases hsel : selectByUsername users u with
  | nil => exact absurd hsel htaken
  | cons a t =>
    obtain ⟨gc, sel, ins⟩ := db
    unfold postRegister
    cases bp <;> cases bc <;> cases gc <;> cases sel <;>
      simp [respond, DbFaults.lookupSucceeds, render500, hsel] <;>
      split_ifs <;> simp

theorem postLogin_frame (db : DbFaults) (url : JSString) (users : UsersTable)
    (s : Session) (body : LoginBody) :
    (postLogin db url users s body).destroyed = false ∧
      (postLogin db url users s body).users = users ∧
      ((postLogin db url users s body).response ≠ some (Response.redirect "/home") →
        (postLogin db url users s body).session = s) := by
  obtain ⟨bu, bp, bm⟩ := body
  obtain ⟨gc, sel, ins⟩ := db
  cases bu with
  | none => simp [postLogin, noResponse]
  | some u =>
    cases bp with
    | none => simp [postLogin, noResponse]
    | some q =>
      cases hsel : selectByUsername users u <;> cases gc <;> cases sel <;>
        simp [postLogin, respond, noResponse, render500, hsel] <;>
        (try split_ifs) <;> (try simp)

theorem postLogin_success (db : DbFaults) (url : JSString) (users : UsersTable)
    (s : Session) (body : LoginBody)
    (h : (postLogin db url users s body).response = some (Response.redirect "/home")) :
    ∃ u q user rest, body.username = some u ∧ body.password = some q ∧
      selectByUsername users u = user :: rest ∧ compareHash q user.password = true ∧
      (postLogin db url users s body).session =
        { cookie := { originalMaxAge :=
            ((toNumber body.maxAge).mul (JSNumber.fin 1000)).mul (JSNumber.fin 60) },
          user := some user,
          count := some (JSNumber.fin 0) } := by
  obtain ⟨bu, bp, bm⟩ := body
  obtain ⟨gc, sel, ins⟩ := db
  cases bu with
  | none => simp [postLogin, noResponse] at h
  | some u =>
    cases bp with
    | none => simp [postLogin, noResponse] at h
    | some q =>
      cases hsel : selectByUsername users u with
      | nil =>
        cases gc <;> cases sel <;>
          simp [postLogin, respond, noResponse, render500, hsel] at h <;>
          (try split_ifs at h) <;> (try simp at h)
      | cons user rest =>
        by_cases hcmp : compareHash q user.password = true
        · refine ⟨u, q, user, rest, rfl, rfl, hsel, hcmp, ?_⟩
          cases gc <;> cases sel <;>
            simp [postLogin, respond, noResponse, render500, hsel, hcmp] at h ⊢ <;>
            (try split_ifs at h ⊢) <;> (try simp_all)
        · cases gc <;> cases sel <;>
            simp [postLogin, respond, noResponse, render500, hsel, hcmp] at h <;>
            (try split_ifs at h) <;> (try simp at h)

theorem postLogin_wrong_password (db : DbFaults) (url : JSString) (users : UsersTable)
    (s : Session) (u p q : JSString) (m : Option Nat) (hreg : RegisteredWith users u p)
    (hintact : VerifierIntact p) (hne : q ≠ p) :
    (postLogin db url users s
      { username := some u, password := some q, maxAge := m }).response ≠
        some (Response.redirect "/home") := by
  intro h
  obtain ⟨u2, q2, user, rest, hu, hq, hsel, hcmp, _⟩ := postLogin_success db url users s _ h
  simp only [Option.some.injEq] at hu hq
  subst hu hq
  obtain ⟨rest2, hsel2⟩ := select_of_registeredWith users _ p hreg
  rw [hsel2] at hsel
  injection hsel with huser _
  rw [← huser] at hcmp
  simp only at hcmp
  rw [hintact] at hcmp
  exact hne ((compareHash_eq_true_iff _ p).1 hcmp)

theorem getHome_authenticated (users : UsersTable) (s : Session) (h : s.user ≠ none) :
    getHome users s =
      { response := some (Response.render 200 "home"
          (Locals.home (increment s.count) s.cookie.originalMaxAge)),
        session := { s with count := some (increment s.count) },
        destroyed := false,
        users := users } := by
  unfold getHome
  cases hu : s.user with
  | none => exact absurd hu h
  | some v => simp

theorem finish_fields (clock : Clock) (o : Outcome) :
    (finish clock o).session.user = o.session.user ∧
      (finish clock o).session.count = o.session.count ∧
      (finish clock o).response = o.response ∧
      (finish clock o).destroyed = o.destroyed ∧
      (finish clock o).users = o.users := by
  unfold finish
  split_ifs <;> simp [touch]

theorem finish_maxAge (clock : Clock) (o : Outcome) :
    (finish clock o).session.cookie.originalMaxAge =
      if o.response ≠ none ∧ o.destroyed = false then
        touchedMaxAge clock o.session.cookie.originalMaxAge
      else o.session.cookie.originalMaxAge := by
  unfold finish
  cases hr : o.response <;> cases hd : o.destroyed <;> simp [touch]

/-! ## Number lemmas -/

theorem roundDouble_of_lt (n : Nat) (h : n < 2 ^ 53) : roundDouble n = JSNumber.fin n := by
  unfold roundDouble
  rw [if_pos h]

theorem droppedBits_spec (fuel : Nat) : ∀ (start n : Nat), n / 2 ^ (start + fuel) < 2 ^ 53 →
    start ≤ droppedBits fuel start n ∧ n / 2 ^ droppedBits fuel start n < 2 ^ 53 ∧
      ∀ e, start ≤ e → n / 2 ^ e < 2 ^ 53 → droppedBits fuel start n ≤ e := by
  induction fuel with
  | zero =>
    intro start n h
    exact ⟨le_refl _, by simpa [droppedBits] using h,
      fun e he _ => by simpa [droppedBits] using he⟩
  | succ f ih =>
    intro start n h
    unfold droppedBits
    by_cases hs : n / 2 ^ start < 2 ^ 53
    · rw [if_pos hs]
      exact ⟨le_refl _, hs, fun e he _ => he⟩
    · rw [if_neg hs]
      have h2 : n / 2 ^ (start + 1 + f) < 2 ^ 53 := by
        have : start + 1 + f = start + (f + 1) := by omega
        rw [this]; exact h
      obtain ⟨a, b, c⟩ := ih (start + 1) n h2
      refine ⟨by omega, b, fun e he hlt => c e ?_ hlt⟩
      rcases Nat.eq_or_lt_of_le he with heq | hlt2
      · subst heq; exact absurd hlt hs
      · exact hlt2

theorem droppedBits_top (n : Nat) :
    n / 2 ^ droppedBits n 0 n < 2 ^ 53 ∧
      ∀ e, n / 2 ^ e < 2 ^ 53 → droppedBits n 0 n ≤ e := by
  have h0 : n / 2 ^ (0 + n) < 2 ^ 53 := by
    rw [Nat.zero_add, Nat.div_eq_of_lt (Nat.lt_two_pow n)]
    exact Nat.two_pow_pos 53
  obtain ⟨_, b, c⟩ := droppedBits_spec n 0 n h0
  exact ⟨b, fun e he => c e (Nat.zero_le e) he⟩

theorem lt_two_pow_of_lt (x a b : Nat) (h : x < 2 ^ a) (hab : a ≤ b) : x < 2 ^ b :=
  lt_of_lt_of_le h (Nat.pow_le_pow_right Nat.zero_lt_two hab)

theorem two_pow_1024 : (2 : Nat) ^ 53 * 2 ^ 971 = 2 ^ 1024 := by
  rw [← pow_add]

theorem roundedSignificand_le (n e : Nat) :
    n / 2 ^ e ≤ roundedSignificand n e ∧ roundedSignificand n e ≤ n / 2 ^ e + 1 := by
  unfold roundedSignificand
  simp only
  split_ifs <;> omega

theorem roundedSignificand_of_dvd (n e : Nat) (h : 2 ^ e ∣ n) :
    roundedSignificand n e = n / 2 ^ e := by
  unfold roundedSignificand
  have hr : n % 2 ^ e = 0 := Nat.mod_eq_zero_of_dvd h
  have hp : 0 < 2 ^ e := Nat.two_pow_pos e
  simp only [hr]
  rw [if_neg]
  omega

theorem mul_two_pow_lt (k e b : Nat) (hk : k ≤ 2 ^ 53) (h : e < b) :
    k * 2 ^ e < 2 ^ 53 * 2 ^ b := by
  have h1 : k * 2 ^ e ≤ 2 ^ 53 * 2 ^ e := Nat.mul_le_mul_right _ hk
  have h2 : (2 : Nat) ^ e < 2 ^ b := Nat.pow_lt_pow_right (by norm_num) h
  have h3 : 2 ^ 53 * 2 ^ e < 2 ^ 53 * 2 ^ b :=
    Nat.mul_lt_mul_of_le_of_lt (le_refl _) h2 (Nat.two_pow_pos 53)
  exact lt_of_le_of_lt h1 h3

theorem mul_two_pow_lt_of_lt (k b : Nat) (hk : k < 2 ^ 53) : k * 2 ^ b < 2 ^ 53 * 2 ^ b :=
  Nat.mul_lt_mul_of_lt_of_le hk (le_refl _) (Nat.two_pow_pos b)

theorem two_pow_mul_le_of_div (n b : Nat) (h : ¬ n / 2 ^ b < 2 ^ 53) : 2 ^ 53 * 2 ^ b ≤ n :=
  (Nat.le_div_iff_mul_le (Nat.two_pow_pos b)).1 (Nat.le_of_not_lt h)

theorem isDouble_of_significand (k e : Nat) (hk : k ≤ 2 ^ 53)
    (hfin : e < 971 ∨ (e = 971 ∧ k < 2 ^ 53)) : IsDouble (k * 2 ^ e) := by
  constructor
  · rw [← two_pow_1024]
    rcases hfin with h | ⟨h, hk2⟩
    · exact mul_two_pow_lt k e 971 hk h
    · rw [h]
      exact mul_two_pow_lt_of_lt k 971 hk2
  · rcases Nat.lt_or_eq_of_le hk with h | h
    · exact ⟨e, k, h, rfl⟩
    · refine ⟨e + 1, 2 ^ 52, by norm_num, ?_⟩
      rw [h, pow_succ]
      ring

theorem roundDouble_isDouble (y x : Nat) (h : roundDouble y = JSNumber.fin x) : IsDouble x := by
  unfold roundDouble at h
  by_cases hy : y < 2 ^ 53
  · rw [if_pos hy] at h
    injection h with h
    subst h
    exact ⟨lt_two_pow_of_lt y 53 1024 hy (by omega), 0, y, hy, by simp⟩
  · rw [if_neg hy] at h
    obtain ⟨hq, _⟩ := droppedBits_top y
    generalize droppedBits y 0 y = e at h hq
    simp only at h
    have hle := (roundedSignificand_le y e).2
    generalize roundedSignificand y e = q1 at h hle
    split_ifs at h with hfin
    injection h with h
    subst h
    exact isDouble_of_significand q1 e (by omega) hfin

theorem roundDouble_of_isDouble (n : Nat) (h : IsDouble n) : roundDouble n = JSNumber.fin n := by
  obtain ⟨hlt, e, k, hk, hn⟩ := h
  unfold roundDouble
  by_cases hy : n < 2 ^ 53
  · rw [if_pos hy]
  · rw [if_neg hy]
    obtain ⟨hq, hmin⟩ := droppedBits_top n
    have hke : n / 2 ^ e = k := by rw [hn]; exact Nat.mul_div_cancel k (Nat.two_pow_pos e)
    have hde : droppedBits n 0 n ≤ e := hmin e (by rw [hke]; exact hk)
    have hdvd : 2 ^ droppedBits n 0 n ∣ n :=
      Dvd.dvd.trans (pow_dvd_pow 2 hde) ⟨k, by rw [hn]; ring⟩
    have hd971 : droppedBits n 0 n ≤ 971 := by
      by_contra hgt
      have h971 : ¬ n / 2 ^ 971 < 2 ^ 53 := fun hlt971 => hgt (hmin 971 hlt971)
      have := two_pow_mul_le_of_div n 971 h971
      rw [two_pow_1024] at this
      exact absurd hlt (Nat.not_lt.2 this)
    generalize droppedBits n 0 n = d at hq hdvd hd971
    simp only [roundedSignificand_of_dvd n d hdvd]
    rw [if_pos (by omega), Nat.div_mul_cancel hdvd]

theorem IsDouble.of_mul (n c : Nat) (h : IsDouble (n * c)) (hc : 0 < c) : IsDouble n := by
  obtain ⟨hlt, e, k, hk, hn⟩ := h
  have hle : n ≤ n * c := Nat.le_mul_of_pos_right n hc
  refine ⟨lt_of_le_of_lt hle hlt, ?_⟩
  by_cases h0 : n = 0
  · exact ⟨0, 0, Nat.two_pow_pos 53, by simp [h0]⟩
  · obtain ⟨a, o, ho, hao⟩ := Nat.exists_eq_two_pow_mul_odd h0
    have hdvd : o ∣ k * 2 ^ e := by
      rw [← hn, hao]
      exact Dvd.dvd.mul_right (Dvd.intro_left _ rfl) c
    have hcop : Nat.Coprime o (2 ^ e) := Nat.Coprime.pow_right e ho.coprime_two_right
    have hok : o ∣ k := hcop.dvd_of_dvd_mul_right hdvd
    have hk0 : k ≠ 0 := by
      intro hk0
      rw [hk0, Nat.zero_mul] at hn
      rcases Nat.mul_eq_zero.1 hn with h1 | h1
      · exact h0 h1
      · omega
    have : o ≤ k := Nat.le_of_dvd (Nat.pos_of_ne_zero hk0) hok
    exact ⟨a, o, lt_of_le_of_lt this hk, by rw [hao]; ring⟩

theorem roundDouble_of_le (n : Nat) (h : n ≤ 2 ^ 53) : roundDouble n = JSNumber.fin n := by
  rcases Nat.lt_or_eq_of_le h with hlt | heq
  · exact roundDouble_of_lt n hlt
  · subst heq
    decide

theorem mul_fin_eq_fin (x : JSNumber) (c y : Nat) (h : x.mul (JSNumber.fin c) = JSNumber.fin y) :
    ∃ a, x = JSNumber.fin a ∧ roundDouble (a * c) = JSNumber.fin y := by
  cases x with
  | nan => simp [JSNumber.mul, JSNumber.abs, mulMagnitude, JSNumber.withSign] at h
  | inf =>
    simp [JSNumber.mul, JSNumber.abs, mulMagnitude, JSNumber.isNegative] at h
    split_ifs at h <;> simp [JSNumber.withSign] at h
  | ninf =>
    simp [JSNumber.mul, JSNumber.abs, mulMagnitude, JSNumber.isNegative] at h
    split_ifs at h <;> simp [JSNumber.withSign] at h
  | fin a =>
    refine ⟨a, rfl, ?_⟩
    simp only [JSNumber.mul, JSNumber.abs, mulMagnitude, JSNumber.isNegative] at h
    cases hr : roundDouble (a * c) <;> simp [hr, JSNumber.withSign] at h ⊢
    exact h
  | neg a =>
    simp only [JSNumber.mul, JSNumber.abs, mulMagnitude, JSNumber.isNegative] at h
    cases hr : roundDouble (a * c) <;> simp [hr, JSNumber.withSign] at h

theorem fin_mul_fin (a c : Nat) :
    (JSNumber.fin a).mul (JSNumber.fin c) = roundDouble (a * c) := by
  simp only [JSNumber.mul, JSNumber.abs, mulMagnitude, JSNumber.isNegative]
  cases roundDouble (a * c) <;> simp [JSNumber.withSign]

theorem maxAge_millis_iff (m : Nat) :
    ((toNumber (some m)).mul (JSNumber.fin 1000)).mul (JSNumber.fin 60) =
        JSNumber.fin (m * 60 * 1000) ↔ IsDouble (m * 60 * 1000) := by
  constructor
  · intro h
    obtain ⟨b, _, hb⟩ := mul_fin_eq_fin _ 60 _ h
    exact roundDouble_isDouble _ _ hb
  · intro h
    have e1 : m * 60 * 1000 = m * 60000 := by omega
    have e2 : m * 60 * 1000 = m * 1000 * 60 := by omega
    have hm : IsDouble m := IsDouble.of_mul m 60000 (e1 ▸ h) (by norm_num)
    have hm1 : IsDouble (m * 1000) := IsDouble.of_mul (m * 1000) 60 (e2 ▸ h) (by norm_num)
    have hm2 : IsDouble (m * 1000 * 60) := e2 ▸ h
    simp only [toNumber]
    rw [roundDouble_of_isDouble m hm, fin_mul_fin, roundDouble_of_isDouble _ hm1, fin_mul_fin,
      roundDouble_of_isDouble _ hm2, e2]

theorem isDouble_maxAge_millis (m : Nat) (h : m ≤ 4803839602528) : IsDouble (m * 60 * 1000) := by
  have hk : m * 1875 < 2 ^ 53 := by omega
  refine ⟨?_, 5, m * 1875, hk, by ring⟩
  have h58 : m * 60 * 1000 < 2 ^ 58 := by omega
  exact lt_two_pow_of_lt _ 58 1024 h58 (by omega)

theorem ofInt_ofNat (n : Nat) : ofInt (Int.ofNat n) = roundDouble n := by
  simp [ofInt]

theorem touchedMaxAge_fin (clock : Clock) (a : Nat) (h1 : clock.later ≤ clock.now + a)
    (h2 : clock.now + a ≤ maxTimeValue) :
    touchedMaxAge clock (JSNumber.fin a) = JSNumber.fin (clock.now + a - clock.later) := by
  have hlt : clock.now + a < 2 ^ 53 := by unfold maxTimeValue at h2; omega
  have hsum : Int.ofNat clock.now + Int.ofNat a = Int.ofNat (clock.now + a) := rfl
  have hsub : Int.ofNat (clock.now + a) - Int.ofNat clock.later =
      Int.ofNat (clock.now + a - clock.later) := by
    simp only [Int.ofNat_eq_coe]
    omega
  simp only [touchedMaxAge, JSNumber.toInt?, hsum, ofInt_ofNat, roundDouble_of_lt _ hlt]
  rw [if_pos (by simpa using h2), hsub, ofInt_ofNat, roundDouble_of_lt _ (by omega)]

theorem handle_frame (db : DbFaults) (url : JSString) (users : UsersTable)
    (s : Session) (r : Request)
    (hr : ¬ ∃ body, r = Request.postLogin body ∧
      (handle db url users s r).response = some (Response.redirect "/home")) :
    (handle db url users s r).session.cookie.originalMaxAge = s.cookie.originalMaxAge ∧
      (handle db url users s r).session.user = s.user ∧
      ((handle db url users s r).session = s ∨
        (r = Request.getHome ∧ s.user ≠ none ∧
          (handle db url users s r).session =
            { s with count := some (increment s.count) })) ∧
      ((handle db url users s r).destroyed = true ↔ r = Request.getLogout) := by
  cases r with
  | postLogin body =>
    have hne : (postLogin db url users s body).response ≠ some (Response.redirect "/home") :=
      fun h => hr ⟨body, rfl, h⟩
    obtain ⟨hd, _, hs⟩ := postLogin_frame db url users s body
    simp [handle, hs hne, hd]
  | postRegister body =>
    obtain ⟨bu, bp, bc⟩ := body
    obtain ⟨gc, sel, ins⟩ := db
    cases bu <;> cases bp <;> cases bc <;> cases gc <;> cases sel <;> cases ins <;>
      simp [handle, postRegister, respond] <;> (try split_ifs) <;> (try simp) <;>
      (try split) <;> (try simp)
  | getHome =>
    cases hu : s.user <;> simp [handle, getHome, respond, hu]
  | getRoot => cases hu : s.user <;> simp [handle, getRoot, respond, hu]
  | getLogin => cases hu : s.user <;> simp [handle, getLogin, respond, hu]
  | getRegister => cases hu : s.user <;> simp [handle, getRegister, respond, hu]
  | getLogout => simp [handle, getLogout]
  | unmatched => simp [handle, notFound, respond]

/-! ## Visits -/

theorem afterHomeVisits_count (users : UsersTable) (clocks : Nat → Clock) (s : Session)
    (h : s.user ≠ none) (h0 : s.count = some (JSNumber.fin 0)) (n : Nat) (hn : n ≤ 2 ^ 53) :
    (afterHomeVisits users clocks s n).user = s.user ∧
      (afterHomeVisits users clocks s n).count = some (JSNumber.fin n) := by
  induction n with
  | zero => exact ⟨rfl, h0⟩
  | succ k ih =>
    obtain ⟨ihu, ihn⟩ := ih (by omega)
    have hk : (afterHomeVisits users clocks s k).user ≠ none := by rw [ihu]; exact h
    obtain ⟨fu, fc, _⟩ :=
      finish_fields (clocks k) (getHome users (afterHomeVisits users clocks s k))
    simp only [afterHomeVisits]
    rw [fu, fc, getHome_authenticated users _ hk]
    refine ⟨ihu, ?_⟩
    simp only [ihn, increment, JSNumber.succ]
    rw [roundDouble_of_le (k + 1) hn]

/-- For a name and a verifier that cross the connection unchanged (no
unpaired surrogate), registration followed by login with the same
credentials succeeds, all queries succeeding. -/
theorem register_then_login_of_intact (db1 db2 : DbFaults) (url1 url2 : JSString)
    (users : UsersTable) (s1 s2 : Session) (u p : JSString) (m : Option Nat)
    (hu : u ≠ []) (hp : p ≠ []) (hfresh : selectByUsername users u = [])
    (hname : utf8Transport u = u) (hhash : utf8Transport (createHash p) = createHash p)
    (hdb1 : db1.allSucceed) (hdb2 : db2.allSucceed) :
    (postRegister db1 url1 users s1
        { username := some u, password := some p, confirmPassword := some p }).response =
      some (Response.redirect "/login") ∧
    (postLogin db2 url2
        (postRegister db1 url1 users s1
          { username := some u, password := some p, confirmPassword := some p }).users s2
        { username := some u, password := some p, maxAge := m }).response =
      some (Response.redirect "/home") ∧
    (postLogin db2 url2
        (postRegister db1 url1 users s1
          { username := some u, password := some p, confirmPassword := some p }).users s2
        { username := some u, password := some p, maxAge := m }).session.user =
      some { username := u, password := createHash p } := by
  rw [postRegister_fresh db1 url1 users s1 u p hu hp hdb1 hfresh]
  obtain ⟨rest, hsel⟩ := select_of_registeredWith _ u p
    (registeredWith_of_insert users u p hu hp hfresh hname)
  rw [hname, hhash] at hsel
  have hlog := postLogin_found db2 url2 (queryInsert users u (createHash p)) s2 u p m _ rest
    hu hp ⟨hdb2.1, hdb2.2.1⟩ hsel
  rw [compareHash_createHash] at hlog
  simp only [respond]
  rw [hlog]
  simp

/-- Where the verifier does not cross the connection unchanged, a password
other than the registered one logs in: user `"al"` registered with U+1F600
`"a"` is stored with the verifier 97, 65533, 65533, and the supplied password
65533, 65533, 97 is redirected to `/home`. -/
theorem login_accepts_other_password_outside_basic_plane :
    (postRegister noFaults [] [] freshSession
        { username := some [97, 108], password := some [55357, 56832, 97],
          confirmPassword := some [55357, 56832, 97] }).users =
      [{ username := [97, 108], password := [97, 65533, 65533] }] ∧
    (postLogin noFaults [] [{ username := [97, 108], password := [97, 65533, 65533] }]
        freshSession
        { username := some [97, 108], password := some [65533, 65533, 97],
          maxAge := some 60 }).response = some (Response.redirect "/home") := by
  decide

/-- The first `maxAge` for which `maxAge * 1000 * 60` is not exact. -/
theorem maxAge_millis_first_inexact :
    ((toNumber (some 4803839602529)).mul (JSNumber.fin 1000)).mul (JSNumber.fin 60) ≠
      JSNumber.fin (4803839602529 * 60 * 1000) := by
  decide

/-! ## Claims -/

/-- C1 fails on the code for a password with a character outside the basic
plane. For user `"al"` and the password U+1F600 `"a"` (code units 55357,
56832, 97), all queries succeeding: `compareHash(p, createHash(p))` is true,
but `createHash(p)` is 97, 56832, 55357, whose two surrogates are unpaired;
the registration redirects to `/login` and the row the table gets holds 97,
65533, 65533; the login with the same username and password then compares
`createHash(p)` with that row, renders the login form and sets no
`session.user`. -/
theorem register_then_login_fails_outside_basic_plane :
    compareHash [55357, 56832, 97] (createHash [55357, 56832, 97]) = true ∧
    createHash [55357, 56832, 97] = [97, 56832, 55357] ∧
    postRegister noFaults [] [] freshSession
        { username := some [97, 108], password := some [55357, 56832, 97],
          confirmPassword := some [55357, 56832, 97] } =
      respond (Response.redirect "/login")
        [{ username := [97, 108], password := [97, 65533, 65533] }] freshSession ∧
    postLogin noFaults [] [{ username := [97, 108], password := [97, 65533, 65533] }]
        freshSession
        { username := some [97, 108], password := some [55357, 56832, 97],
          maxAge := some 60 } =
      respond (Response.render 200 "login" Locals.empty)
        [{ username := [97, 108], password := [97, 65533, 65533] }] freshSession := by
  decide

/-- C2, as amended. For a user stored by registration with a password `p`
whose verifier crosses the database connection unchanged, and a supplied
password `q` different from `p`, a `POST /login` with that username and `q`
never redirects to `/home` and leaves the session as it was (`session.user`,
`session.count` and the cookie are not written, the session is not
destroyed) and the table as it was, whatever the database does and also for
an empty `q`; when `q` is not empty and the connection is obtained and the
lookup query resolves, the response is the login form with status 200. -/
theorem login_wrong_password (db : DbFaults) (url : JSString) (users : UsersTable)
    (s : Session) (u p q : JSString) (m : Option Nat) (hreg : RegisteredWith users u p)
    (hintact : VerifierIntact p) (hne : q ≠ p) :
    (postLogin db url users s { username := some u, password := some q, maxAge := m }).response ≠
        some (Response.redirect "/home") ∧
      (postLogin db url users s { username := some u, password := some q, maxAge := m }).session =
        s ∧
      (postLogin db url users s
        { username := some u, password := some q, maxAge := m }).destroyed = false ∧
      (postLogin db url users s
        { username := some u, password := some q, maxAge := m }).users = users ∧
      (q ≠ [] → db.lookupSucceeds →
        (postLogin db url users s
          { username := some u, password := some q, maxAge := m }).response =
          some (Response.render 200 "login" Locals.empty)) := by
  have hno := postLogin_wrong_password db url users s u p q m hreg hintact hne
  obtain ⟨hd, hus, hs⟩ :=
    postLogin_frame db url users s { username := some u, password := some q, maxAge := m }
  refine ⟨hno, hs hno, hd, hus, ?_⟩
  intro hq hdb
  obtain ⟨rest, hsel⟩ := select_of_registeredWith users u p hreg
  have hcmp : compareHash q (utf8Transport (createHash p)) = false := by
    rw [hintact, Bool.eq_false_iff, Ne, compareHash_eq_true_iff]
    exact hne
  rw [postLogin_found db url users s u q m _ rest hreg.1 hq hdb hsel]
  simp [hcmp, respond]

/-- C2 at user `"al"` registered with `"pw"` and the supplied password `"px"`. -/
theorem login_wrong_password_witness :
    (RegisteredWith [{ username := [97, 108], password := [119, 112] }] [97, 108] [112, 119] ∧
      VerifierIntact [112, 119] ∧ ([112, 120] : JSString) ≠ [112, 119]) ∧
    (postLogin noFaults [] [{ username := [97, 108], password := [119, 112] }] freshSession
        { username := some [97, 108], password := some [112, 120], maxAge := some 60 }).response =
      some (Response.render 200 "login" Locals.empty) ∧
    (postLogin noFaults [] [{ username := [97, 108], password := [119, 112] }] freshSession
        { username := some [97, 108], password := some [112, 120], maxAge := some 60 }).session =
      freshSession :=
  have hreg : RegisteredWith [{ username := [97, 108], password := [119, 112] }]
      [97, 108] [112, 119] := ⟨by decide, by decide, by decide⟩
  have hintact : VerifierIntact [112, 119] := by unfold VerifierIntact; decide
  have h := login_wrong_password noFaults [] [{ username := [97, 108], password := [119, 112] }]
    freshSession [97, 108] [112, 119] [112, 120] (some 60) hreg hintact (by decide)
  ⟨⟨hreg, hintact, by decide⟩, h.2.2.2.2 (by decide) ⟨rfl, rfl⟩, h.2.1⟩

/-- C2 as stated fails: with `"al"` registered with `"pw"`, the wrong
password `"px"` and the lookup query rejecting, the login is answered with
the 500 page, not with the login form. -/
theorem login_wrong_password_counterexample :
    ¬ ∀ (db : DbFaults) (url : JSString) (users : UsersTable) (s : Session)
        (u p q : JSString) (m : Option Nat),
        RegisteredWith users u p → q ≠ p →
        (postLogin db url users s
            { username := some u, password := some q, maxAge := m }).response =
            some (Response.render 200 "login" Locals.empty) ∧
          (postLogin db url users s
            { username := some u, password := some q, maxAge := m }).session = s := by
  intro h
  have h1 := (h { getConnection := none, select := some [100], insert := none } []
    [{ username := [97, 108], password := [119, 112] }] freshSession
    [97, 108] [112, 119] [112, 120] (some 60) ⟨by decide, by decide, by decide⟩
    (by decide)).1
  revert h1
  decide

/-- C3. A `POST /register` whose `password` differs from `confirmPassword`
renders the register form with status 200, whatever the username, the table
and the database: it does not redirect, it leaves the `users` table and the
session as they were, and its outcome does not depend on how the database
would answer (no query is issued). -/
theorem register_password_mismatch (db : DbFaults) (url : JSString) (users : UsersTable)
    (s : Session) (body : RegisterBody) (hne : body.password ≠ body.confirmPassword) :
    postRegister db url users s body =
        respond (Response.render 200 "register" Locals.empty) users s ∧
      (postRegister db url users s body).response ≠ some (Response.redirect "/login") ∧
      (postRegister db url users s body).users = users ∧
      ∀ db2 : DbFaults, postRegister db2 url users s body = postRegister db url users s body := by
  have key : ∀ d : DbFaults, postRegister d url users s body =
      respond (Response.render 200 "register" Locals.empty) users s := by
    intro d
    obtain ⟨bu, bp, bc⟩ := body
    unfold postRegister
    cases bu <;> cases bp <;> cases bc <;> simp at hne ⊢
    intro _ _ _ h
    exact absurd h hne
  refine ⟨key db, ?_, ?_, fun d => by rw [key d, key db]⟩
  · rw [key db]; simp [respond]
  · rw [key db]; rfl

/-- C3 at username `"al"`, password `"pw"`, confirmation `"pv"`. -/
theorem register_password_mismatch_witness :
    (some ([112, 119] : JSString) ≠ some [112, 118]) ∧
    postRegister noFaults [] [] freshSession
        { username := some [97, 108], password := some [112, 119],
          confirmPassword := some [112, 118] } =
      respond (Response.render 200 "register" Locals.empty) [] freshSession :=
  ⟨by decide,
    (register_password_mismatch noFaults [] [] freshSession
      { username := some [97, 108], password := some [112, 119],
        confirmPassword := some [112, 118] } (by decide)).1⟩

/-- C4, as amended. A `POST /register` whose username already has a row in
the `users` table, with any password and confirmation, never redirects to
`/login` and leaves the `users` table as it was, so usernames that were
pairwise distinct stay pairwise distinct; provided the connection is obtained
and the lookup query resolves, the response is the register form with status
200. -/
theorem register_existing_username (db : DbFaults) (url : JSString) (users : UsersTable)
    (s : Session) (body : RegisterBody) (u : JSString) (hu : body.username = some u)
    (hrow : ∃ row ∈ users, row.username = u) :
    (postRegister db url users s body).response ≠ some (Response.redirect "/login") ∧
      (postRegister db url users s body).users = users ∧
      ((users.map User.username).Nodup →
        ((postRegister db url users s body).users.map User.username).Nodup) ∧
      (db.lookupSucceeds → (postRegister db url users s body).response =
        some (Response.render 200 "register" Locals.empty)) := by
  have h := postRegister_taken db url users s body u hu (selectByUsername_ne_nil users u hrow)
  refine ⟨h.2.2.2.1, h.1, ?_, h.2.2.2.2⟩
  rw [h.1]
  exact id

/-- C4 at the table holding `"al"`, a second registration of `"al"` and a
database that answers. -/
theorem register_existing_username_witness :
    (∃ row ∈ [({ username := [97, 108], password := [119, 112] } : User)],
        row.username = [97, 108]) ∧
    (postRegister noFaults [] [{ username := [97, 108], password := [119, 112] }] freshSession
        { username := some [97, 108], password := some [120], confirmPassword := some [120] }
      ).users = [{ username := [97, 108], password := [119, 112] }] ∧
    (postRegister noFaults [] [{ username := [97, 108], password := [119, 112] }] freshSession
        { username := some [97, 108], password := some [120], confirmPassword := some [120] }
      ).response = some (Response.render 200 "register" Locals.empty) :=
  have h := register_existing_username noFaults []
    [{ username := [97, 108], password := [119, 112] }] freshSession
    { username := some [97, 108], password := some [120], confirmPassword := some [120] }
    [97, 108] rfl ⟨_, List.mem_singleton.2 rfl, rfl⟩
  ⟨⟨_, List.mem_singleton.2 rfl, rfl⟩, h.2.1, h.2.2.2 ⟨rfl, rfl⟩⟩

/-- C4 as stated fails: with `"al"` in the table and the lookup query
rejecting, a registration of `"al"` is answered with the 500 page, not with
the register form. -/
theorem register_existing_username_counterexample :
    ¬ ∀ (db : DbFaults) (url : JSString) (users : UsersTable) (s : Session)
        (body : RegisterBody) (u : JSString),
        body.username = some u → (∃ row ∈ users, row.username = u) →
        (postRegister db url users s body).response =
            some (Response.render 200 "register" Locals.empty) ∧
          (postRegister db url users s body).users = users := by
  intro h
  have h1 := (h { getConnection := none, select := some [100], insert := none } []
    [{ username := [97, 108], password := [119, 112] }] freshSession
    { username := some [97, 108], password := some [120], confirmPassword := some [120] }
    [97, 108] rfl ⟨_, List.mem_singleton.2 rfl, rfl⟩).1
  revert h1
  decide

/-- C5, as amended. For every successful `POST /login` with a `maxAge` of
`m` minutes, the handler leaves `cookie.originalMaxAge` equal to
`m * 60 * 1000` exactly when `m * 60 * 1000` is the value of a finite double
(below `2 ^ 1024`, at most 53 significant bits), which it is for every
`m ≤ 4803839602528`; the session's user is the first row the credential
lookup returns, and its count is 0. When the response ends, the middleware's
`touch()` keeps that user and that count and recomputes `originalMaxAge`
from the clock, as for every answered request. -/
theorem login_session_fields (db : DbFaults) (url : JSString) (users : UsersTable)
    (s : Session) (body : LoginBody) (m : Nat) (hm : body.maxAge = some m)
    (hok : (postLogin db url users s body).response = some (Response.redirect "/home")) :
    ((postLogin db url users s body).session.cookie.originalMaxAge =
        JSNumber.fin (m * 60 * 1000) ↔ IsDouble (m * 60 * 1000)) ∧
      (m ≤ 4803839602528 →
        (postLogin db url users s body).session.cookie.originalMaxAge =
          JSNumber.fin (m * 60 * 1000)) ∧
      (postLogin db url users s body).session.user =
        body.username.bind (fun u => (selectByUsername users u).head?) ∧
      (postLogin db url users s body).session.user ≠ none ∧
      (postLogin db url users s body).session.count = some (JSNumber.fin 0) ∧
      ∀ clock : Clock,
        (serve db url users s clock (Request.postLogin body)).session.user =
            (postLogin db url users s body).session.user ∧
          (serve db url users s clock (Request.postLogin body)).session.count =
            (postLogin db url users s body).session.count ∧
          (serve db url users s clock (Request.postLogin body)).session.cookie.originalMaxAge =
            touchedMaxAge clock (postLogin db url users s body).session.cookie.originalMaxAge := by
  obtain ⟨u, q, user, rest, hu, _, hsel, _, hsess⟩ := postLogin_success db url users s body hok
  have hd := (postLogin_frame db url users s body).1
  refine ⟨?_, ?_, ?_, ?_, ?_, ?_⟩
  · rw [hsess, hm]; exact maxAge_millis_iff m
  · intro hle
    rw [hsess, hm]
    exact (maxAge_millis_iff m).2 (isDouble_maxAge_millis m hle)
  · rw [hsess, hu]; simp [hsel]
  · rw [hsess]; simp
  · rw [hsess]
  · intro clock
    obtain ⟨fu, fc, _⟩ := finish_fields clock (postLogin db url users s body)
    refine ⟨fu, fc, ?_⟩
    simp only [serve, handle]
    rw [finish_maxAge, if_pos ⟨by rw [hok]; simp, hd⟩]

/-- C5 at `maxAge` 60: the session lives 3600000 ms. -/
theorem login_session_fields_witness :
    (postLogin noFaults [] [{ username := [97, 108], password := [119, 112] }] freshSession
        { username := some [97, 108], password := some [112, 119], maxAge := some 60 }).response =
      some (Response.redirect "/home") ∧
    (postLogin noFaults [] [{ username := [97, 108], password := [119, 112] }] freshSession
        { username := some [97, 108], password := some [112, 119], maxAge := some 60 }
      ).session.cookie.originalMaxAge = JSNumber.fin 3600000 :=
  ⟨by decide,
    (login_session_fields noFaults [] [{ username := [97, 108], password := [119, 112] }]
      freshSession
      { username := some [97, 108], password := some [112, 119], maxAge := some 60 }
      60 rfl (by decide)).2.1 (by decide)⟩

/-- C5 as stated fails: a login with `maxAge` `2 ^ 53 + 1` succeeds and leaves
`originalMaxAge` at `2 ^ 53 * 60000`, because `2 ^ 53 + 1` is not a double. -/
theorem login_session_fields_counterexample :
    ¬ ∀ (db : DbFaults) (url : JSString) (users : UsersTable) (s : Session)
        (body : LoginBody) (m : Nat),
        body.maxAge = some m →
        (postLogin db url users s body).response = some (Response.redirect "/home") →
        (postLogin db url users s body).session.cookie.originalMaxAge =
          JSNumber.fin (m * 60 * 1000) := by
  intro h
  have h1 := h noFaults [] [{ username := [97, 108], password := [119, 112] }] freshSession
    { username := some [97, 108], password := some [112, 119],
      maxAge := some 9007199254740993 }
    9007199254740993 rfl (by decide)
  revert h1
  decide

/-- C6, as amended. For an authenticated session whose count is an integer
`c` below `2 ^ 53`, one `GET /home` sets the count to `c + 1` and renders
the home view with `counter = c + 1`, writing nothing else; hence, after a
successful login, the session saved by `n` consecutive `GET /home` requests
has count `n` for every `n` up to `2 ^ 53`, the `n`-th request having
displayed `n`, whatever the clock reads at which the requests end. -/
theorem home_increments_count (users : UsersTable) (s : Session) (c : Nat)
    (hauth : s.user ≠ none) (hc : s.count = some (JSNumber.fin c)) (hexact : c < 2 ^ 53) :
    getHome users s =
        { response := some (Response.render 200 "home"
            (Locals.home (JSNumber.fin (c + 1)) s.cookie.originalMaxAge)),
          session := { s with count := some (JSNumber.fin (c + 1)) },
          destroyed := false,
          users := users } ∧
      ∀ (db : DbFaults) (url : JSString) (users0 : UsersTable) (s0 : Session)
        (body : LoginBody) (clock0 : Clock) (clocks : Nat → Clock) (n : Nat),
        (postLogin db url users0 s0 body).response = some (Response.redirect "/home") →
        n < 2 ^ 53 →
        (afterHomeVisits users clocks
            (serve db url users0 s0 clock0 (Request.postLogin body)).session n).count =
            some (JSNumber.fin n) ∧
          (∃ age, (getHome users (afterHomeVisits users clocks
              (serve db url users0 s0 clock0 (Request.postLogin body)).session n)).response =
            some (Response.render 200 "home" (Locals.home (JSNumber.fin (n + 1)) age))) ∧
          (afterHomeVisits users clocks
            (serve db url users0 s0 clock0 (Request.postLogin body)).session (n + 1)).count =
            some (JSNumber.fin (n + 1)) := by
  constructor
  · rw [getHome_authenticated users s hauth, hc]
    simp only [increment, JSNumber.succ]
    rw [roundDouble_of_le (c + 1) hexact]
  · intro db url users0 s0 body clock0 clocks n hok hn
    obtain ⟨u, q, user, rest, _, _, _, _, hsess⟩ := postLogin_success db url users0 s0 body hok
    obtain ⟨fu, fc, _⟩ := finish_fields clock0 (postLogin db url users0 s0 body)
    have hu : (serve db url users0 s0 clock0 (Request.postLogin body)).session.user ≠ none := by
      simp only [serve, handle]
      rw [fu, hsess]
      simp
    have h0 : (serve db url users0 s0 clock0 (Request.postLogin body)).session.count =
        some (JSNumber.fin 0) := by
      simp only [serve, handle]
      rw [fc, hsess]
    obtain ⟨hnu, hnn⟩ := afterHomeVisits_count users clocks _ hu h0 n (by omega)
    refine ⟨hnn, ?_, (afterHomeVisits_count users clocks _ hu h0 (n + 1) hn).2⟩
    rw [getHome_authenticated users _ (by rw [hnu]; exact hu), hnn]
    simp only [increment, JSNumber.succ]
    rw [roundDouble_of_le (n + 1) hn]
    exact ⟨_, rfl⟩

/-- C6 at a session logged in as `"al"` with count 4: the next `GET /home`
stores and displays 5. -/
theorem home_increments_count_witness :
    ((some ({ username := [97, 108], password := [119, 112] } : User)) ≠ none ∧
      (4 : Nat) < 2 ^ 53) ∧
    getHome []
        { cookie := { originalMaxAge := JSNumber.fin 3600000 },
          user := some { username := [97, 108], password := [119, 112] },
          count := some (JSNumber.fin 4) } =
      { response := some (Response.render 200 "home"
          (Locals.home (JSNumber.fin 5) (JSNumber.fin 3600000))),
        session :=
          { cookie := { originalMaxAge := JSNumber.fin 3600000 },
            user := some { username := [97, 108], password := [119, 112] },
            count := some (JSNumber.fin 5) },
        destroyed := false,
        users := [] } :=
  ⟨⟨by decide, by decide⟩,
    (home_increments_count []
      { cookie := { originalMaxAge := JSNumber.fin 3600000 },
        user := some { username := [97, 108], password := [119, 112] },
        count := some (JSNumber.fin 4) }
      4 (by decide) rfl (by decide)).1⟩

/-- C6 as stated fails: at count `2 ^ 53` a `GET /home` stores `2 ^ 53` again,
because `2 ^ 53 + 1` is not a double. -/
theorem home_increments_count_counterexample :
    ¬ ∀ (users : UsersTable) (s : Session) (c : Nat),
        s.user ≠ none → s.count = some (JSNumber.fin c) →
        (getHome users s).session.count = some (JSNumber.fin (c + 1)) := by
  intro h
  have h1 := h []
    { cookie := { originalMaxAge := JSNumber.fin 3600000 },
      user := some { username := [97, 108], password := [119, 112] },
      count := some (JSNumber.fin 9007199254740992) }
    9007199254740992 (by decide) rfl
  revert h1
  decide

/-- C7. Auth gate decision table: for a `GET` of `/`, `/login`, `/register`
or `/home` and any session, the handler redirects to `/login` exactly when
the route is `/home` and the session has no user, redirects to `/home`
exactly when the route is one of the other three and the session has a user,
and otherwise renders the route's own view with status 200; a redirecting
handler leaves the session, its count included, and the table as they
were. -/
theorem auth_gate_decision_table (db : DbFaults) (url : JSString) (users : UsersTable)
    (s : Session) (r : Request)
    (hr : r = Request.getRoot ∨ r = Request.getLogin ∨ r = Request.getRegister ∨
      r = Request.getHome) :
    ((handle db url users s r).response = some (Response.redirect "/login") ↔
        (r = Request.getHome ∧ s.user = none)) ∧
      ((handle db url users s r).response = some (Response.redirect "/home") ↔
        (r ≠ Request.getHome ∧ s.user ≠ none)) ∧
      (¬ (r = Request.getHome ∧ s.user = none) →
        ¬ (r ≠ Request.getHome ∧ s.user ≠ none) →
        ∃ locals, (handle db url users s r).response =
          some (Response.render 200 (ownView r) locals)) ∧
      (((handle db url users s r).response = some (Response.redirect "/login") ∨
          (handle db url users s r).response = some (Response.redirect "/home")) →
        (handle db url users s r).session = s ∧
          (handle db url users s r).destroyed = false ∧
          (handle db url users s r).users = users) := by
  rcases hr with h | h | h | h <;> subst h <;> cases hu : s.user <;>
    simp [handle, getRoot, getLogin, getRegister, getHome, respond, ownView, hu]

/-- C7 at `GET /home` on a session without user: redirect to `/login`. -/
theorem auth_gate_decision_table_witness :
    (Request.getHome = Request.getRoot ∨ Request.getHome = Request.getLogin ∨
      Request.getHome = Request.getRegister ∨ Request.getHome = Request.getHome) ∧
    (handle noFaults [] [] freshSession Request.getHome).response =
      some (Response.redirect "/login") ∧
    (handle noFaults [] [] freshSession Request.getHome).session = freshSession :=
  have h := auth_gate_decision_table noFaults [] [] freshSession Request.getHome
    (Or.inr (Or.inr (Or.inr rfl)))
  ⟨Or.inr (Or.inr (Or.inr rfl)), h.1.2 ⟨rfl, rfl⟩,
    (h.2.2.2 (Or.inl (h.1.2 ⟨rfl, rfl⟩))).1⟩

/-- C8, as amended. For every request other than a successful `POST /login`,
the route handler leaves the session's `cookie.originalMaxAge` and `user` as
they were: it writes no session field at all, or it is `GET /home` on an
authenticated session and writes the count alone; `GET /logout` alone
destroys the session, and writes none of its fields. The expiry is refreshed
all the same: an answered request that is not `GET /logout` ends with the
middleware's `touch()`, so the session that is saved has the same user, the
count the handler left, and `originalMaxAge` recomputed from the clock, which
for an `originalMaxAge` of `a` milliseconds and clock reads `now` and `later`
with `later ≤ now + a ≤ 8640000000000000` is `now + a - later`: the value
before the request less the milliseconds between the two reads. -/
theorem session_frame (db : DbFaults) (url : JSString) (users : UsersTable)
    (s : Session) (clock : Clock) (r : Request)
    (hr : ¬ ∃ body, r = Request.postLogin body ∧
      (handle db url users s r).response = some (Response.redirect "/home")) :
    (handle db url users s r).session.cookie.originalMaxAge = s.cookie.originalMaxAge ∧
      (handle db url users s r).session.user = s.user ∧
      ((handle db url users s r).session = s ∨
        (r = Request.getHome ∧ s.user ≠ none ∧
          (handle db url users s r).session =
            { s with count := some (increment s.count) })) ∧
      ((handle db url users s r).destroyed = true ↔ r = Request.getLogout) ∧
      (serve db url users s clock r).session.user = s.user ∧
      (serve db url users s clock r).session.count = (handle db url users s r).session.count ∧
      (serve db url users s clock r).session.cookie.originalMaxAge =
        (if (handle db url users s r).response ≠ none ∧ r ≠ Request.getLogout then
          touchedMaxAge clock s.cookie.originalMaxAge
        else s.cookie.originalMaxAge) ∧
      ∀ a : Nat, s.cookie.originalMaxAge = JSNumber.fin a → clock.later ≤ clock.now + a →
        clock.now + a ≤ maxTimeValue →
        touchedMaxAge clock s.cookie.originalMaxAge =
          JSNumber.fin (clock.now + a - clock.later) := by
  obtain ⟨h1, h2, h3, h4⟩ := handle_frame db url users s r hr
  obtain ⟨fu, fc, _⟩ := finish_fields clock (handle db url users s r)
  refine ⟨h1, h2, h3, h4, by rw [serve, fu, h2], by rw [serve, fc], ?_, ?_⟩
  · rw [serve, finish_maxAge, h1]
    by_cases hl : r = Request.getLogout
    · subst hl
      simp [handle, getLogout]
    · have hd : (handle db url users s r).destroyed = false := by
        cases hd : (handle db url users s r).destroyed
        · rfl
        · exact absurd (h4.1 hd) hl
      simp [hl, hd]
  · intro a ha hlater hmax
    rw [ha]
    exact touchedMaxAge_fin clock a hlater hmax

/-- C8 at `GET /home` on a session logged in with `maxAge` 60 and count 4,
the clock advancing by one millisecond during `touch()`: the user stays,
the count becomes 5, `originalMaxAge` goes from 3600000 to 3599999. -/
theorem session_frame_witness :
    (¬ ∃ body, Request.getHome = Request.postLogin body ∧
      (handle noFaults [] []
        { cookie := { originalMaxAge := JSNumber.fin 3600000 },
          user := some { username := [97, 108], password := [119, 112] },
          count := some (JSNumber.fin 4) } Request.getHome).response =
        some (Response.redirect "/home")) ∧
    (serve noFaults [] []
        { cookie := { originalMaxAge := JSNumber.fin 3600000 },
          user := some { username := [97, 108], password := [119, 112] },
          count := some (JSNumber.fin 4) }
        { now := 1700000000000, later := 1700000000001 } Request.getHome).session =
      { cookie := { originalMaxAge := JSNumber.fin 3599999 },
        user := some { username := [97, 108], password := [119, 112] },
        count := some (JSNumber.fin 5) } ∧
    (serve noFaults [] []
        { cookie := { originalMaxAge := JSNumber.fin 3600000 },
          user := some { username := [97, 108], password := [119, 112] },
          count := some (JSNumber.fin 4) }
        { now := 1700000000000, later := 1700000000001 } Request.getHome).session.user =
      some { username := [97, 108], password := [119, 112] } :=
  have hr : ¬ ∃ body, Request.getHome = Request.postLogin body ∧
      (handle noFaults [] []
        { cookie := { originalMaxAge := JSNumber.fin 3600000 },
          user := some { username := [97, 108], password := [119, 112] },
          count := some (JSNumber.fin 4) } Request.getHome).response =
        some (Response.redirect "/home") :=
    fun ⟨_, h, _⟩ => Request.noConfusion h
  have h := session_frame noFaults [] []
    { cookie := { originalMaxAge := JSNumber.fin 3600000 },
      user := some { username := [97, 108], password := [119, 112] },
      count := some (JSNumber.fin 4) }
    { now := 1700000000000, later := 1700000000001 } Request.getHome hr
  ⟨hr, by decide, h.2.2.2.2.1⟩

/-- C8 as stated fails: a `GET /home` on a session logged in with `maxAge`
60, the clock advancing by one millisecond during `touch()`, leaves
`originalMaxAge` at 3599999 where it was 3600000. -/
theorem session_frame_counterexample :
    ¬ ∀ (db : DbFaults) (url : JSString) (users : UsersTable) (s : Session)
        (clock : Clock) (r : Request),
        clock.now ≤ clock.later →
        (¬ ∃ body, r = Request.postLogin body ∧
          (handle db url users s r).response = some (Response.redirect "/home")) →
        (serve db url users s clock r).session.cookie.originalMaxAge =
            s.cookie.originalMaxAge ∧
          (serve db url users s clock r).session.user = s.user := by
  intro h
  have h1 := (h noFaults [] []
    { cookie := { originalMaxAge := JSNumber.fin 3600000 },
      user := some { username := [97, 108], password := [119, 112] },
      count := some (JSNumber.fin 4) }
    { now := 1700000000000, later := 1700000000001 }
    Request.getHome (by decide) (fun ⟨_, hb, _⟩ => Request.noConfusion hb)).1
  revert h1
  decide

/-- C9 fails on the code: a `POST /login` for the registered user `"al"` with
an empty password, the database answering, sends no response at all, where
the claim has the login form with status 200; the sibling `POST /register`
with an empty password does render its form. -/
theorem login_empty_password_sends_nothing :
    (postLogin noFaults [] [{ username := [97, 108], password := [119, 112] }] freshSession
        { username := some [97, 108], password := some [], maxAge := some 60 }).response =
      none ∧
    (postLogin noFaults [] [{ username := [97, 108], password := [119, 112] }] freshSession
        { username := some [97, 108], password := none, maxAge := some 60 }).response =
      none ∧
    (postRegister noFaults [] [] freshSession
        { username := some [97, 108], password := some [], confirmPassword := some [] }
      ).response = some (Response.render 200 "register" Locals.empty) := by
  decide

/-- C10. `createHash` is an involution on strings, hence injective, and
applying it to the verifier that registration hands to `INSERT` gives back
the password. -/
theorem createHash_involution :
    (∀ p : JSString, createHash (createHash p) = p) ∧
      Function.Injective createHash ∧
      ∀ (users : UsersTable) (u p : JSString),
        (insertUser users u (createHash p)).getLast?.map (fun row => createHash row.password) =
          some p := by
  refine ⟨createHash_involutive, createHash_injective, ?_⟩
  intro users u p
  simp [insertUser, createHash_involutive]

end ExpressSessionsMysql
